import Mathlib

/-!
Shallow embedding of `src/scripts/tools.py` (fiducial-marker calibration
statistics).  A pandas `DataFrame` of calibration reports is modelled as a
`List Report`; a missing (NaN) cell is `none`.  Numeric cells are modelled as
exact rationals: the Python code performs IEEE double arithmetic, which we
idealise as exact arithmetic on ℚ (the claims under study never depend on
floating-point rounding error).  The Python three-decimal f-string formatting is modelled
as exact half-up rounding of the rational value to three decimals, and
the formatting of NaN as the string nan.
-/

/-- Truncated quotient semantics are irrelevant here: `Int.fdiv` is floor
division, and `num/den` with `den > 0` makes this the floor of the rational. -/
def qfloorZ (q : ℚ) : ℤ := Int.fdiv q.num (q.den : ℤ)

/-- Python `int(q)` truncates toward zero; every use in the source applies it
to a nonnegative value, where truncation coincides with the floor. -/
def pyInt (q : ℚ) : ℕ := (qfloorZ q).toNat

/-- Round half-up to the nearest integer. -/
def roundNearest (q : ℚ) : ℤ := qfloorZ (q + 1/2)

/-- Integer square root, Newton iteration.  The recursion is expressed with
`Nat.rec` on a fuel argument so that it reduces lazily inside the kernel; the
guess strictly decreases while the iteration continues, so fuel `n` always
suffices and the result is the floor of the real square root. -/
def sqrtNewton (n : ℕ) (fuel : ℕ) : ℕ → ℕ :=
  Nat.rec (motive := fun _ => ℕ → ℕ) (fun g => g)
    (fun _ ih g =>
      let g' := (g + n / g) / 2
      if g' < g then ih g' else g) fuel

/-- Floor of the real square root of `n`. -/
def isqrt (n : ℕ) : ℕ := if n ≤ 1 then n else sqrtNewton n n n

/-- Left-pad the fractional part to three digits. -/
def pad3 (n : ℕ) : String :=
  if n < 10 then "00" ++ toString n else if n < 100 then "0" ++ toString n else toString n

/-- Render `n` thousandths as a fixed three-decimal string. -/
def fmtScaled (n : ℕ) : String := toString (n / 1000) ++ "." ++ pad3 (n % 1000)

/-- Three-decimal formatting of a non-NaN value: round `1000*q` half-up, render sign and
three decimals. -/
def fmt3 (q : ℚ) : String :=
  if q < 0 then "-" ++ fmtScaled (qfloorZ (1000 * (-q) + 1/2)).toNat
  else fmtScaled (qfloorZ (1000 * q + 1/2)).toNat

/-- Three-decimal formatting of a pandas scalar that may be NaN. -/
def fmtOpt3 (o : Option ℚ) : String :=
  match o with
  | none => "nan"
  | some q => fmt3 q

/-- Three-decimal rendering of `√v`: `round(1000·√v) = ⌊(⌊√(4·10⁶·v)⌋+1)/2⌋`,
computed with the integer square root. -/
def fmtSqrt3 (v : ℚ) : String := fmtScaled ((isqrt (qfloorZ (4000000 * v)).toNat + 1) / 2)

/-- pandas `Series.mean()`: NaN entries are dropped by the callers before this
is applied; the mean of an empty series is NaN (`none`). -/
def meanQ (l : List ℚ) : Option ℚ := if l = [] then none else some (l.sum / l.length)

/-- pandas sample variance (`ddof=1`): NaN (`none`) when fewer than two
values are present. -/
def sampleVar (l : List ℚ) : Option ℚ :=
  if l.length < 2 then none
  else some ((l.map (fun x => (x - l.sum / l.length)^2)).sum / (l.length - 1))

/-- Three-decimal formatting of the pandas sample standard deviation of
`l`: NaN (rendered `"nan"`) below two values, else `√(sampleVar l)`. -/
def fmtStd (l : List ℚ) : String :=
  match sampleVar l with
  | none => "nan"
  | some v => fmtSqrt3 v

/-- pandas `Series.median()`: average of the two middle elements of the
sorted values (they coincide for odd length); NaN (`none`) when empty. -/
def medianQ (l : List ℚ) : Option ℚ :=
  if l = [] then none
  else
    let s := List.insertionSort (fun a b => a ≤ b) l
    some ((s.getD ((l.length - 1) / 2) 0 + s.getD (l.length / 2) 0) / 2)

/-- One calibration report: the eight marker corner coordinates and the four
marker-separation distances.  Any cell may be missing. -/
structure Report where
  llx : Option ℚ := none
  lly : Option ℚ := none
  urx : Option ℚ := none
  ury : Option ℚ := none
  ulx : Option ℚ := none
  uly : Option ℚ := none
  lrx : Option ℚ := none
  lry : Option ℚ := none
  mlx : Option ℚ := none
  mly : Option ℚ := none
  mrx : Option ℚ := none
  mry : Option ℚ := none
  mtx : Option ℚ := none
  mty : Option ℚ := none
  mbx : Option ℚ := none
  mby : Option ℚ := none
  lr_dist : Option ℚ := none
  tb_dist : Option ℚ := none
  llur_dist : Option ℚ := none
  ullr_dist : Option ℚ := none
deriving DecidableEq

/-- One row of the pivoted table: marker name with its x, y cells.  The
`angle` column of the source is `atan2(y, x)` of exactly these two cells and
is carried through to the output grouped by name; no claim constrains its
transcendental numeric value, so the embedding keeps the `(x, y)` pairs that
determine it rather than a real-number approximation. -/
structure Obs where
  name : String
  x : Option ℚ
  y : Option ℚ
deriving DecidableEq

/-- `pivot_measures`: one row per marker `P1..P8`, x/y taken from the corner
columns `ll, ur, ul, lr, ml, mr, mt, mb` in that order. -/
def pivot_measures (r : Report) : List Obs :=
  [⟨"P1", r.llx, r.lly⟩, ⟨"P2", r.urx, r.ury⟩, ⟨"P3", r.ulx, r.uly⟩, ⟨"P4", r.lrx, r.lry⟩,
   ⟨"P5", r.mlx, r.mly⟩, ⟨"P6", r.mrx, r.mry⟩, ⟨"P7", r.mtx, r.mty⟩, ⟨"P8", r.mbx, r.mby⟩]

/-- `pd.concat` of the pivoted rows followed by `dropna` on the x and y columns with how=all: all pivoted rows,
dropping those whose x and y are both missing. -/
def pivotedTable (info : List Report) : List Obs :=
  ((info.map pivot_measures).flatten).filter (fun o => o.x.isSome || o.y.isSome)

def markerNames : List String := ["P1", "P2", "P3", "P4", "P5", "P6", "P7", "P8"]

/-- `pivoted.groupby` by marker name: groups in sorted key order (the names `P1..P8`
sort in their natural order); only nonempty groups exist. -/
def groupsOf (info : List Report) : List (String × List Obs) :=
  markerNames.filterMap (fun n =>
    let g := (pivotedTable info).filter (fun o => o.name == n)
    if g.isEmpty then none else some (n, g))

/-- The non-missing x cells of a group (the x column of the group, NaN skipped). -/
def xsOf (g : List Obs) : List ℚ := g.filterMap (fun o => o.x)

/-- The non-missing y cells of a group (the y column of the group, NaN skipped). -/
def ysOf (g : List Obs) : List ℚ := g.filterMap (fun o => o.y)

/-- The per-group mean of the x column as a series over the groups. -/
def xmeansOf (info : List Report) : List (Option ℚ) :=
  (groupsOf info).map (fun p => meanQ (xsOf p.2))

/-- The per-group mean of the y column as a series over the groups. -/
def ymeansOf (info : List Report) : List (Option ℚ) :=
  (groupsOf info).map (fun p => meanQ (ysOf p.2))

/-- pandas `Series.min()`: NaN entries are skipped by the caller; `none` on
an empty series. -/
def myMin (l : List ℚ) : Option ℚ :=
  match l with
  | [] => none
  | x :: xs => some (xs.foldl min x)

/-- `series - series.min()`: pandas `min` skips NaN, and subtracting a NaN
scalar (the all-NaN case) leaves every entry NaN. -/
def recenterVals (l : List (Option ℚ)) : List (Option ℚ) :=
  match myMin l.reduceOption with
  | none => l.map (fun _ => none)
  | some m => l.map (Option.map (fun v => v - m))

/-- `xmean -= xmean.min()`. -/
def xrecOf (info : List Report) : List (Option ℚ) := recenterVals (xmeansOf info)

/-- `ymean = -ymean - (-ymean).min()`. -/
def yrecOf (info : List Report) : List (Option ℚ) :=
  recenterVals ((ymeansOf info).map (Option.map (fun v => -v)))

/-- The per-group count of non-missing x cells. -/
def countsOf (info : List Report) : List ℕ :=
  (groupsOf info).map (fun p => (xsOf p.2).length)

/-- The median of the per-group x counts as a rational (the groups are nonempty
whenever this is used, so the `getD` default is never taken). -/
def countsMedian (info : List Report) : ℚ :=
  (medianQ ((countsOf info).map (fun n => (n : ℚ)))).getD 0

/-- The source converts the count median with int(), truncating toward
zero, which on this nonnegative median is the floor. -/
def nrepFidsOf (info : List Report) : ℕ := pyInt (countsMedian info)

/-- One row of the marker-location table `fids`. -/
structure FidRow where
  name : String
  x : String
  y : String
  angle : List (Option ℚ × Option ℚ)
deriving DecidableEq

/-- The `fids` table: per group, recentered mean `± std` strings for x and y
(pandas aligns the series by the shared group index, embedded here as
positional alignment over the identically-indexed lists), and the data of the
angle column. -/
def fidRowsOf (info : List Report) : List FidRow :=
  ((groupsOf info).zip ((xrecOf info).zip (yrecOf info))).map (fun q =>
    { name := q.1.1
      x := fmtOpt3 q.2.1 ++ " ± " ++ fmtStd (xsOf q.1.2)
      y := fmtOpt3 q.2.2 ++ " ± " ++ fmtStd (ysOf q.1.2)
      angle := q.1.2.map (fun o => (o.x, o.y)) })

/-- One row of the separation table `dists`. -/
structure DistRow where
  markers : String
  mean : String
  median : String
deriving DecidableEq

/-- The four distance fields in source iteration order, already carrying the
pair label that the source substitutes afterwards with `replace`. -/
def distSpec : List (String × (Report → Option ℚ)) :=
  [("P5 - P6", Report.lr_dist), ("P7 - P8", Report.tb_dist),
   ("P1 - P2", Report.llur_dist), ("P3 - P4", Report.ullr_dist)]

/-- The non-missing values of one distance field across all reports. -/
def distValsOf (info : List Report) (f : Report → Option ℚ) : List ℚ :=
  (info.map f).reduceOption

/-- The row written for one distance field when at least one value is
present: three-decimal mean-and-std and median strings over the
non-missing values. -/
def mkDistRow (info : List Report) (p : String × (Report → Option ℚ)) : DistRow :=
  { markers := p.1
    mean := fmtOpt3 (meanQ (distValsOf info p.2)) ++ " ± " ++ fmtStd (distValsOf info p.2)
    median := fmtOpt3 (medianQ (distValsOf info p.2)) }

/-- The `dists` table: one row per distance field having at least one
non-missing value, in source iteration order. -/
def distsTableOf (info : List Report) : List DistRow :=
  distSpec.filterMap (fun p =>
    if (distValsOf info p.2).isEmpty then none else some (mkDistRow info p))

/-- The full return value of `compute_statistics`. -/
structure Stats where
  dists : List DistRow
  fids : Option (List FidRow)
  nrep_dists : ℕ
  nrep_fids : ℕ
deriving DecidableEq

/-- `compute_statistics(info)`. -/
def compute_statistics (info : List Report) : Stats :=
  { dists := distsTableOf info
    fids := if (pivotedTable info).isEmpty then none else some (fidRowsOf info)
    nrep_dists := info.length
    nrep_fids := if (pivotedTable info).isEmpty then 0 else nrepFidsOf info }

/-- The replace call of the source maps the colon character to a hyphen; both arguments are single characters, so the
substring replacement is a character map. -/
def replaceColons (s : String) : String :=
  ⟨s.data.map (fun c => if c = ':' then '-' else c)⟩

/-- `nice_table`: the text printed to standard output.  `DataFrame.
to_markdown` is external library code, not part of this repository, so the
two renderings are abstracted as function parameters. -/
def nice_table (renderD : List DistRow → String) (renderF : List FidRow → String)
    (info : List Report) : String :=
  let st := compute_statistics info
  let base := "**Marker Separation (n = " ++ toString st.nrep_dists ++ " reports)**\n\n"
    ++ renderD st.dists
  let full :=
    match st.fids with
    | some f => base ++ "\n\n**Marker Location (n = " ++ toString st.nrep_fids
        ++ " reports)**\n\n" ++ renderF f
    | none => base
  replaceColons full

/-- Input for C1: marker `P1` observed once, marker `P2` twice, so the
per-marker count median is `3/2`. -/
def c1table : List Report :=
  [{ llx := some 0, lly := some 0, urx := some 1, ury := some 1 },
   { urx := some 2, ury := some 2 }]

/-- The example input of the spec: one report with `ll = (0,0)`, `ur = (1,1)`
and `lr_dist = 2`, a second report with only `lr_dist = 4`. -/
def c2table : List Report :=
  [{ llx := some 0, lly := some 0, urx := some 1, ury := some 1, lr_dist := some 2 },
   { lr_dist := some 4 }]

/-- A table of two reports with every cell missing. -/
def blankTable : List Report := [{}, {}]

/-- Input for C5: a single report whose only present cell is `lly`, so one
observation survives the drop but no x value is present anywhere. -/
def c5table : List Report := [{ lly := some 5 }]

/-- Input for C7: a single report observing only marker `P1`, once. -/
def c7table : List Report := [{ llx := some 0, lly := some 0 }]

/-- Input for C6: every marker coordinate missing, one distance present. -/
def c6table : List Report := [{ lr_dist := some 1 }]

/-- Every marker x and y cell of the report is missing. -/
def allMissing (r : Report) : Prop :=
  r.llx = none ∧ r.lly = none ∧ r.urx = none ∧ r.ury = none ∧
  r.ulx = none ∧ r.uly = none ∧ r.lrx = none ∧ r.lry = none ∧
  r.mlx = none ∧ r.mly = none ∧ r.mrx = none ∧ r.mry = none ∧
  r.mtx = none ∧ r.mty = none ∧ r.mbx = none ∧ r.mby = none

instance (r : Report) : Decidable (allMissing r) := by
  unfold allMissing
  infer_instance

/-- `compute_statistics` paired with the state of its argument after the
call.  The source reads the table only through len, column selection and
itertuples, and contains no statement assigning into it, so the
post-call table is the input itself. -/
def compute_statistics_frame (info : List Report) : Stats × List Report :=
  (compute_statistics info, info)

/-- `nice_table` paired with the state of its argument after the call; as in
`compute_statistics_frame`, the source never assigns into `info`. -/
def nice_table_frame (renderD : List DistRow → String) (renderF : List FidRow → String)
    (info : List Report) : String × List Report :=
  (nice_table renderD renderF info, info)

/-- Inclusion and content of the row of one distance field in the separation
table: the pair label appears iff the field has a present value, and the row
for the label is built from exactly the present values. -/
def fieldOk (info : List Report) (label : String) (f : Report → Option ℚ) : Prop :=
  ((∃ row ∈ distsTableOf info, row.markers = label) ↔ distValsOf info f ≠ []) ∧
  (∀ row ∈ distsTableOf info, row.markers = label → row = mkDistRow info (label, f))

/-- The `fids` row produced for `c7table`. -/
def c7row : FidRow := { name := "P1", x := "0.000 ± nan", y := "0.000 ± nan",
                        angle := [(some 0, some 0)] }

/-! Helper lemmas about `myMin` (folded minimum). -/

theorem foldl_min_le_init (xs : List ℚ) (a : ℚ) : xs.foldl min a ≤ a := by
  induction xs generalizing a with
  | nil => exact le_refl a
  | cons x xs ih => exact le_trans (ih (min a x)) (min_le_left a x)

theorem foldl_min_le_mem (xs : List ℚ) (a : ℚ) {y : ℚ} (hy : y ∈ xs) :
    xs.foldl min a ≤ y := by
  induction xs generalizing a with
  | nil => cases hy
  | cons x xs ih =>
    rcases List.mem_cons.mp hy with rfl | h
    · exact le_trans (foldl_min_le_init xs (min a y)) (min_le_right a y)
    · exact ih (min a x) h

theorem le_foldl_min {xs : List ℚ} {a m : ℚ} (ha : m ≤ a) (h : ∀ y ∈ xs, m ≤ y) :
    m ≤ xs.foldl min a := by
  induction xs generalizing a with
  | nil => exact ha
  | cons x xs ih =>
    exact ih (le_min ha (h x (List.mem_cons_self x xs)))
      (fun y hy => h y (List.mem_cons_of_mem x hy))

theorem foldl_min_mem (xs : List ℚ) (a : ℚ) :
    xs.foldl min a = a ∨ xs.foldl min a ∈ xs := by
  induction xs generalizing a with
  | nil => exact Or.inl rfl
  | cons x xs ih =>
    rcases ih (min a x) with h | h
    · rcases min_choice a x with h2 | h2
      · exact Or.inl (h.trans h2)
      · exact Or.inr (List.mem_cons.mpr (Or.inl (h.trans h2)))
    · exact Or.inr (List.mem_cons_of_mem x h)

theorem myMin_le {l : List ℚ} {m y : ℚ} (hm : myMin l = some m) (hy : y ∈ l) :
    m ≤ y := by
  cases l with
  | nil => cases hm
  | cons x xs =>
    obtain rfl : xs.foldl min x = m := by simpa [myMin] using hm
    rcases List.mem_cons.mp hy with rfl | h
    · exact foldl_min_le_init xs y
    · exact foldl_min_le_mem xs x h

theorem myMin_mem {l : List ℚ} {m : ℚ} (hm : myMin l = some m) : m ∈ l := by
  cases l with
  | nil => cases hm
  | cons x xs =>
    obtain rfl : xs.foldl min x = m := by simpa [myMin] using hm
    rcases foldl_min_mem xs x with h | h
    · rw [h]
      exact List.mem_cons_self x xs
    · exact List.mem_cons_of_mem x h

theorem myMin_eq_some {l : List ℚ} {m : ℚ} (h1 : m ∈ l) (h2 : ∀ y ∈ l, m ≤ y) :
    myMin l = some m := by
  cases l with
  | nil => cases h1
  | cons x xs =>
    have hle : xs.foldl min x ≤ m := by
      rcases List.mem_cons.mp h1 with rfl | h
      · exact foldl_min_le_init xs m
      · exact foldl_min_le_mem xs x h
    have hge : m ≤ xs.foldl min x :=
      le_foldl_min (h2 x (List.mem_cons_self x xs))
        (fun y hy => h2 y (List.mem_cons_of_mem x hy))
    simpa [myMin] using le_antisymm hle hge

/-! Helper lemmas about the tables. -/

theorem groupsOf_spec {info : List Report} {p : String × List Obs}
    (h : p ∈ groupsOf info) :
    p.2 = (pivotedTable info).filter (fun o => o.name == p.1) ∧ p.2 ≠ [] := by
  simp only [groupsOf, List.mem_filterMap] at h
  obtain ⟨n, hn, hsome⟩ := h
  split at hsome
  · exact absurd hsome (by simp)
  · rename_i hcond
    cases hsome
    refine ⟨rfl, ?_⟩
    intro hnil
    exact hcond (by rw [List.isEmpty_iff]; exact hnil)

theorem mem_distsTableOf {info : List Report} {row : DistRow} :
    row ∈ distsTableOf info ↔
      ∃ p ∈ distSpec, distValsOf info p.2 ≠ [] ∧ row = mkDistRow info p := by
  simp only [distsTableOf, List.mem_filterMap]
  constructor
  · rintro ⟨p, hp, h⟩
    split at h
    · exact absurd h (by simp)
    · rename_i hcond
      cases h
      exact ⟨p, hp, fun hnil => hcond (by simp [hnil]), rfl⟩
  · rintro ⟨p, hp, hne, rfl⟩
    refine ⟨p, hp, ?_⟩
    simp [List.isEmpty_iff, hne]

theorem distSpec_label_inj {p q : String × (Report → Option ℚ)}
    (hp : p ∈ distSpec) (hq : q ∈ distSpec) (h : p.1 = q.1) : p = q := by
  simp only [distSpec, List.mem_cons, List.not_mem_nil, or_false] at hp hq
  rcases hp with rfl | rfl | rfl | rfl <;> rcases hq with rfl | rfl | rfl | rfl <;>
    first
      | rfl
      | exact absurd h (by decide)

theorem fieldOk_of (info : List Report) (label : String) (f : Report → Option ℚ)
    (hmem : (label, f) ∈ distSpec) : fieldOk info label f := by
  constructor
  · constructor
    · rintro ⟨row, hrow, hlab⟩
      obtain ⟨p, hp, hne, rfl⟩ := mem_distsTableOf.mp hrow
      have hpq : p = (label, f) := distSpec_label_inj hp hmem hlab
      rw [hpq] at hne
      exact hne
    · intro hne
      exact ⟨mkDistRow info (label, f),
        mem_distsTableOf.mpr ⟨(label, f), hmem, hne, rfl⟩, rfl⟩
  · intro row hrow hlab
    obtain ⟨p, hp, hne, rfl⟩ := mem_distsTableOf.mp hrow
    have hpq : p = (label, f) := distSpec_label_inj hp hmem hlab
    rw [hpq]

theorem pivoted_nil_of_missing {info : List Report} (h : ∀ r ∈ info, allMissing r) :
    pivotedTable info = [] := by
  rw [pivotedTable, List.filter_eq_nil]
  intro o ho
  obtain ⟨l, hl, hol⟩ := List.mem_flatten.mp ho
  obtain ⟨r, hr, rfl⟩ := List.mem_map.mp hl
  obtain ⟨h1, h2, h3, h4, h5, h6, h7, h8, h9, h10, h11, h12, h13, h14, h15, h16⟩ := h r hr
  simp only [pivot_measures, List.mem_cons, List.not_mem_nil, or_false] at hol
  rcases hol with rfl | rfl | rfl | rfl | rfl | rfl | rfl | rfl <;>
    simp [h1, h2, h3, h4, h5, h6, h7, h8, h9, h10, h11, h12, h13, h14, h15, h16]

/-! The claims. -/

/-- C1 counterexample: on `c1table` one marker is observed once and another
twice, the per-marker count median is `3/2`, any nearest-integer rounding of
it is `2`, yet the code returns `int(3/2) = 1`. -/
theorem C1_counterexample :
    pivotedTable c1table ≠ [] ∧
    (compute_statistics c1table).nrep_fids = 1 ∧
    countsMedian c1table = 3/2 ∧
    roundNearest (countsMedian c1table) = 2 := by
  with_unfolding_all decide

/-- C1 (amended): whenever observations survive the pivot-and-drop step, the
marker-location report count equals the median of the per-marker observation
counts truncated toward zero (the floor, the counts being nonnegative), not
rounded to the nearest integer. -/
theorem C1_trunc_median (info : List Report) (h : pivotedTable info ≠ []) :
    (compute_statistics info).nrep_fids = pyInt (countsMedian info) := by
  simp [compute_statistics, nrepFidsOf, List.isEmpty_iff, h]

/-- C1 witness at `c1table`. -/
theorem C1_trunc_median_witness :
    pivotedTable c1table ≠ [] ∧
    (compute_statistics c1table).nrep_fids = pyInt (countsMedian c1table) :=
  ⟨by with_unfolding_all decide, C1_trunc_median c1table (by with_unfolding_all decide)⟩

/-- C2: on the example table of the spec the separation statistics consist of
exactly the row `P5 - P6` with mean string `3.000 ± 1.414` and median string
`3.000`, the separation report count is 2, and the marker statistics hold
rows for exactly the markers P1 and P2. -/
theorem C2_example_table :
    (compute_statistics c2table).dists
      = [{ markers := "P5 - P6", mean := "3.000 ± 1.414", median := "3.000" }] ∧
    (compute_statistics c2table).nrep_dists = 2 ∧
    ((compute_statistics c2table).fids).map (fun l => l.map FidRow.name)
      = some ["P1", "P2"] := by
  with_unfolding_all decide

/-- C3: for every input table, each of the four distance fields contributes
its pair row to the separation statistics iff some report has a present value
for that field, the row being computed from exactly the present values; when
every field is entirely missing the table has zero rows. -/
theorem C3_dist_rows (info : List Report) :
    (fieldOk info "P5 - P6" Report.lr_dist ∧ fieldOk info "P7 - P8" Report.tb_dist ∧
     fieldOk info "P1 - P2" Report.llur_dist ∧ fieldOk info "P3 - P4" Report.ullr_dist) ∧
    ((∀ p ∈ distSpec, distValsOf info p.2 = []) → distsTableOf info = []) := by
  refine ⟨⟨fieldOk_of _ _ _ ?_, fieldOk_of _ _ _ ?_, fieldOk_of _ _ _ ?_,
      fieldOk_of _ _ _ ?_⟩, ?_⟩
  · simp [distSpec]
  · simp [distSpec]
  · simp [distSpec]
  · simp [distSpec]
  · intro h
    rw [distsTableOf, List.filterMap_eq_nil]
    intro p hp
    simp [h p hp, List.isEmpty_iff]

/-- C3 witness: on the example table the `P5 - P6` row is present, and a
table whose distance fields are all missing yields zero rows. -/
theorem C3_dist_rows_witness :
    (∃ row ∈ distsTableOf c2table, row.markers = "P5 - P6") ∧
    distsTableOf blankTable = [] :=
  ⟨((C3_dist_rows c2table).1.1).1.mpr (by with_unfolding_all decide),
   (C3_dist_rows blankTable).2 (by
      intro p hp
      simp only [distSpec, List.mem_cons, List.not_mem_nil, or_false] at hp
      rcases hp with rfl | rfl | rfl | rfl <;> with_unfolding_all decide)⟩

/-- C4: the separation report count is the number of rows of the input
table, whatever is missing. -/
theorem C4_nrep_dists (info : List Report) :
    (compute_statistics info).nrep_dists = info.length := rfl

/-- C5 counterexample: `c5table` produces a non-empty marker-statistics
result (one surviving observation, which has no x value), yet the recentered
mean x values have no minimum at all, let alone one equal to 0: every entry
is NaN. -/
theorem C5_counterexample :
    pivotedTable c5table ≠ [] ∧
    myMin ((xrecOf c5table).reduceOption) ≠ some 0 := by
  with_unfolding_all decide

/-- C5 (amended): when observations survive and at least one x mean is
present, the present recentered mean x values have minimum exactly 0; and
any marker whose original mean y value is present and maximal among the
present mean y values has recentered y value exactly 0. -/
theorem C5_recenter (info : List Report) (hne : pivotedTable info ≠ []) :
    ((xmeansOf info).reduceOption ≠ [] →
      myMin ((xrecOf info).reduceOption) = some 0) ∧
    (∀ (i : ℕ) (M : ℚ), (ymeansOf info)[i]? = some (some M) →
      (∀ v ∈ (ymeansOf info).reduceOption, v ≤ M) →
      (yrecOf info)[i]? = some (some 0)) := by
  constructor
  · intro hx
    obtain ⟨a, as, hcase⟩ := List.exists_cons_of_ne_nil hx
    have hm : myMin ((xmeansOf info).reduceOption) = some (as.foldl min a) := by
      rw [hcase]
      rfl
    set m := as.foldl min a with hmdef
    rw [xrecOf, recenterVals, hm, List.reduceOption_map]
    apply myMin_eq_some
    · exact List.mem_map.mpr ⟨m, myMin_mem hm, sub_self m⟩
    · intro y hy
      obtain ⟨v, hv, rfl⟩ := List.mem_map.mp hy
      exact sub_nonneg.mpr (myMin_le hm hv)
  · intro i M hi hmax
    have hmem : M ∈ (ymeansOf info).reduceOption :=
      List.reduceOption_mem_iff.mpr (List.getElem?_mem hi)
    have hminneg :
        myMin (((ymeansOf info).map (Option.map (fun v => -v))).reduceOption)
          = some (-M) := by
      rw [List.reduceOption_map]
      apply myMin_eq_some
      · exact List.mem_map.mpr ⟨M, hmem, rfl⟩
      · intro w hw
        obtain ⟨v, hv, rfl⟩ := List.mem_map.mp hw
        exact neg_le_neg (hmax v hv)
    rw [yrecOf, recenterVals, hminneg, List.getElem?_map, List.getElem?_map, hi]
    simp

/-- C5 witness at the example table: the recentered x means attain minimum 0
and the marker with maximal y mean (index 1, `P2`) is recentered to 0. -/
theorem C5_recenter_witness :
    myMin ((xrecOf c2table).reduceOption) = some 0 ∧
    (yrecOf c2table)[1]? = some (some 0) :=
  ⟨(C5_recenter c2table (by with_unfolding_all decide)).1 (by with_unfolding_all decide),
   (C5_recenter c2table (by with_unfolding_all decide)).2 1 1
     (by with_unfolding_all decide) (by with_unfolding_all decide)⟩

/-- C6: when every marker x and y cell of every report is missing, no
observation survives, the marker-statistics result is absent and its report
count is 0. -/
theorem C6_all_missing (info : List Report) (h : ∀ r ∈ info, allMissing r) :
    (compute_statistics info).fids = none ∧
    (compute_statistics info).nrep_fids = 0 := by
  have hp := pivoted_nil_of_missing h
  simp [compute_statistics, hp]

/-- C6 witness at `c6table`. -/
theorem C6_all_missing_witness :
    (∀ r ∈ c6table, allMissing r) ∧
    (compute_statistics c6table).fids = none ∧
    (compute_statistics c6table).nrep_fids = 0 :=
  ⟨by with_unfolding_all decide, C6_all_missing c6table (by with_unfolding_all decide)⟩

/-- C7: a marker with exactly one surviving observation has x and y entries
whose `± ...` part is the string `nan`: a single observation has an undefined
sample standard deviation and no guard replaces it. -/
theorem C7_single_obs (info : List Report) (row : FidRow) (hrow : row ∈ fidRowsOf info)
    (h1 : ((pivotedTable info).filter (fun o => o.name == row.name)).length = 1) :
    (∃ s, row.x = s ++ " ± nan") ∧ (∃ t, row.y = t ++ " ± nan") := by
  simp only [fidRowsOf, List.mem_map] at hrow
  obtain ⟨q, hq, rfl⟩ := hrow
  obtain ⟨hgmem, -⟩ := List.of_mem_zip hq
  obtain ⟨hfil, -⟩ := groupsOf_spec hgmem
  have hglen : q.1.2.length = 1 := by
    rw [hfil]
    exact h1
  have hxvar : sampleVar (xsOf q.1.2) = none := by
    rw [sampleVar, if_pos]
    calc (xsOf q.1.2).length ≤ q.1.2.length := List.length_filterMap_le _ _
    _ < 2 := by rw [hglen]; exact Nat.one_lt_two
  have hyvar : sampleVar (ysOf q.1.2) = none := by
    rw [sampleVar, if_pos]
    calc (ysOf q.1.2).length ≤ q.1.2.length := List.length_filterMap_le _ _
    _ < 2 := by rw [hglen]; exact Nat.one_lt_two
  have happ : (" ± " ++ "nan" : String) = " ± nan" := by decide
  constructor
  · refine ⟨fmtOpt3 q.2.1, ?_⟩
    show fmtOpt3 q.2.1 ++ " ± " ++ fmtStd (xsOf q.1.2) = _
    rw [fmtStd, hxvar, String.append_assoc, happ]
  · refine ⟨fmtOpt3 q.2.2, ?_⟩
    show fmtOpt3 q.2.2 ++ " ± " ++ fmtStd (ysOf q.1.2) = _
    rw [fmtStd, hyvar, String.append_assoc, happ]

/-- C7 witness: the sole `P1` row of `c7table` carries `± nan` in both
coordinate strings. -/
theorem C7_single_obs_witness :
    (∃ s, c7row.x = s ++ " ± nan") ∧ (∃ t, c7row.y = t ++ " ± nan") :=
  C7_single_obs c7table c7row (by with_unfolding_all decide)
    (by with_unfolding_all decide)

/-- C8: `compute_statistics` is a pure function of its input: the source
draws on no state other than the argument table (no globals, no I/O, no
randomness), so equal inputs give equal outputs, and in particular repeating
the call on the same unmodified table reproduces every component. -/
theorem C8_deterministic (info1 info2 : List Report) (h : info1 = info2) :
    compute_statistics info1 = compute_statistics info2 :=
  congrArg compute_statistics h

/-- C8 witness: two calls on the example table agree. -/
theorem C8_deterministic_witness :
    compute_statistics c2table = compute_statistics c2table :=
  C8_deterministic c2table c2table rfl

/-- C9: neither call mutates the input table: the post-call table state is
the input, every row and field unchanged. -/
theorem C9_frame (renderD : List DistRow → String) (renderF : List FidRow → String)
    (info : List Report) :
    (compute_statistics_frame info).2 = info ∧
    (nice_table_frame renderD renderF info).2 = info :=
  ⟨rfl, rfl⟩

/-- C10: the text printed by `nice_table` contains no colon character, every
rendered `:` having been replaced by `-`. -/
theorem C10_no_colon (renderD : List DistRow → String) (renderF : List FidRow → String)
    (info : List Report) :
    ((nice_table renderD renderF info).data.all (fun c => c != ':')) = true := by
  show ((replaceColons _).data.all (fun c => c != ':')) = true
  rw [replaceColons, List.all_eq_true]
  intro x hx
  obtain ⟨c, hc, rfl⟩ := List.mem_map.mp hx
  by_cases h : c = ':' <;> simp [h]
